import Mathlib

/-!
Verification of the GifTiffLoader repository (src/GifTiffLoader.py, the
"legacy" module, and src/GifTiffLoader/GifTiffLoader.py, the packaged
module) against its natural-language specification.

The modules are straight-line numeric and filename-convention code built on
numpy and PIL.  We embed them shallowly:

* a numpy integer array is a `List Int` (the dtype is tracked separately by
  the `bits` parameter of the conversion functions);
* `np.clip` / `ndarray.clip` is `npclip`, which follows numpy's documented
  semantics `minimum(maximum(x, lo), hi)` — in particular, when `lo > hi`
  every entry is mapped to `hi`;
* `ndarray.max()` / `ndarray.min()` are `listMax` / `listMin` (numpy raises
  on an empty array, so theorems about them carry a nonemptiness
  hypothesis);
* the float arithmetic of the scaling step is modelled exactly: the value
  `(x - minVal) * clipRatio` (packaged) and `(x - minVal) * maxClip / d`
  (legacy) are the same exact rational, whose truncation toward zero is
  `Int.tdiv ((x - minVal) * maxClip) d`; the final `astype` to the target
  unsigned dtype wraps modulo `2 ^ bits` (`castU`);
* the float comparison `clipRatio < 1` is decided exactly by integer sign
  analysis (`ratioLt1`);
* fallible Python code (asserts, raised exceptions) is modelled with
  `Except PyErr`.
-/

namespace GifTiffLoader

/-- Python exceptions that the embedded code can raise. -/
inductive PyErr
  | nameError
  | valueError
  | typeError
  | assertionError
deriving DecidableEq

deriving instance DecidableEq for Except

/-- The value of `arr.max()` on a nonempty integer array; `listMax [] = 0` is an
artifact of totalisation (numpy raises `ValueError` on an empty array, so
theorems restrict to nonempty lists where it matters). -/
def listMax : List Int → Int
  | [] => 0
  | x :: xs => xs.foldl max x

/-- The value of `arr.min()` on a nonempty integer array (same totalisation as
`listMax`). -/
def listMin : List Int → Int
  | [] => 0
  | x :: xs => xs.foldl min x

/-- Elementwise `np.clip(arr, lo, hi)`, with numpy's documented semantics
`np.minimum(np.maximum(arr, lo), hi)`: when `lo > hi` every entry becomes
`hi`. -/
def npclip (lo hi : Int) (l : List Int) : List Int :=
  l.map (fun x => min (max x lo) hi)

/-- The truncation toward zero of the exact rational `n / d`, the value a
numpy float division-then-`astype` produces under exact arithmetic.  The
`d = 0` case (where numpy floats would give `±inf`/`nan`) is totalised to
`0` and lies outside the scope of every theorem below. -/
def truncDiv (n d : Int) : Int :=
  Int.tdiv n d

/-- The `astype` cast to the unsigned `bits`-bit dtype from an integral value:
wrap modulo `2 ^ bits`. -/
def castU (bits : Nat) (n : Int) : Int :=
  Int.emod n (2 ^ bits)

/-- The `zeroMode` argument of `DivideConvertType`. -/
inductive ZeroMode
  | clip
  | abs
  | stretch
deriving DecidableEq

/-- The `maxMode` argument of `DivideConvertType`. -/
inductive MaxMode
  | clip
  | stretch
deriving DecidableEq

/-- Whether the float `clipRatio = 1. * maxClip / d` compares `< 1`,
decided exactly: for `d > 0` it is `maxClip < d`, for `d < 0` it is
`d < maxClip`, and for `d = 0` the division produces `inf` (when
`maxClip > 0`), `-inf` (when `maxClip < 0`) or `nan` (when `maxClip = 0`),
of which only `-inf` is `< 1`. -/
def ratioLt1 (maxClip d : Int) : Bool :=
  if 0 < d then decide (maxClip < d)
  else if d < 0 then decide (d < maxClip)
  else decide (maxClip < 0)

/-- The array that `arr` holds after the optional `maxMode='clip'` step of
the packaged `DivideConvertType` (src/GifTiffLoader/GifTiffLoader.py lines
67-68): `arr.clip(arr.min(), maxVal, out=arr)` runs exactly when
`maxMode == 'clip'` and `maxVal is not None`. -/
def maxClippedArr (arr : List Int) (maxVal : Option Int) (maxMode : MaxMode) : List Int :=
  match maxMode, maxVal with
  | MaxMode.clip, some v => npclip (listMin arr) v arr
  | _, _ => arr

/-- Embedding of `DivideConvertType` from the packaged module
src/GifTiffLoader/GifTiffLoader.py, lines 48-86, for argument combinations
that pass its asserts.  Returns the pair
`(returned array, contents of the caller's array after the call)`:
the `clip(..., out=arr)` and `np.absolute(arr, out=arr)` steps update the
caller's array in place, while `arr = np.double(arr)` onward rebinds the
local name only.  Step by step:
`maxClip = maxVal if maxMode == 'stretch' and maxVal is not None else 2**bits-1`;
in-place clip for `maxMode == 'clip'` with an integer `maxVal`;
`minVal = arr.min() if zeroMode == 'stretch' else 0`;
`maxVal = arr.max() if maxVal is None else maxVal`;
in-place `arr.clip(0, arr.max())` for `zeroMode == 'clip'`, in-place
`np.absolute` for `'abs'`;
`clipRatio = 1. * maxClip / (maxVal - minVal)`;
if `zeroMode == 'stretch' or clipRatio < 1` the array is converted to
double, shifted by `-minVal`, and multiplied by `clipRatio` when
`clipRatio < 1` (modelled exactly as `truncDiv ((x - minVal) * maxClip) d`
at the final cast); finally `arr.astype(type_dict[bits])` (`castU`). -/
def DivideConvertType (arr : List Int) (bits : Nat) (maxVal : Option Int)
    (zeroMode : ZeroMode) (maxMode : MaxMode) : List Int × List Int :=
  let maxClip : Int :=
    match maxMode, maxVal with
    | MaxMode.stretch, some v => v
    | _, _ => 2 ^ bits - 1
  let arr1 : List Int := maxClippedArr arr maxVal maxMode
  let minVal : Int :=
    match zeroMode with
    | ZeroMode.stretch => listMin arr1
    | _ => 0
  let mv : Int :=
    match maxVal with
    | none => listMax arr1
    | some v => v
  let arr2 : List Int :=
    match zeroMode with
    | ZeroMode.clip => npclip 0 (listMax arr1) arr1
    | ZeroMode.abs => arr1.map (fun x => |x|)
    | ZeroMode.stretch => arr1
  let d : Int := mv - minVal
  let ret : List Int :=
    if zeroMode = ZeroMode.stretch ∨ ratioLt1 maxClip d = true then
      if ratioLt1 maxClip d = true then
        arr2.map (fun x => castU bits (truncDiv ((x - minVal) * maxClip) d))
      else
        arr2.map (fun x => castU bits (x - minVal))
    else
      arr2.map (fun x => castU bits x)
  (ret, arr2)

/-- Embedding of `DivideConvertType` from the legacy module
src/GifTiffLoader.py, lines 14-54, for argument combinations that pass its
parameter checks.  This version never mutates the caller's array: every
`arr = arr.clip(...)`, `arr = np.absolute(arr)`, `arr = np.double(arr)`
rebinds the local name to a fresh array, so the second component (the
caller's array after the call) is the input itself.  Step by step:
`maxClip = 2**bits-1`; if `maxVal` is `None` it becomes `arr.max()`, and
for an integer `maxVal`, `maxMode == 'clip'` clips to
`(arr.min(), maxVal)` while `maxMode == 'stretch'` clips to
`(arr.min(), arr.max())` (a value-preserving copy) and sets
`maxClip = maxVal`; `minVal = 0`, with `zeroMode == 'clip'` clipping to
`(0, arr.max())`, `'abs'` taking absolute values and `'stretch'` setting
`minVal = arr.min()`; then `arr = np.double(arr) - minVal`, the scale
`arr * maxClip / (maxVal - minVal)` is applied when
`(maxVal - minVal) > maxClip` (modelled exactly as
`truncDiv ((x - minVal) * maxClip) d` at the final cast), and the result is
cast with `np.array(arr, dtype=type_dict[bits])` (`castU`). -/
def DivideConvertTypeLegacy (arr : List Int) (bits : Nat) (maxVal : Option Int)
    (zeroMode : ZeroMode) (maxMode : MaxMode) : List Int × List Int :=
  let s : List Int × Int × Int :=
    match maxVal with
    | none => (arr, 2 ^ bits - 1, listMax arr)
    | some v =>
      match maxMode with
      | MaxMode.clip => (npclip (listMin arr) v arr, 2 ^ bits - 1, v)
      | MaxMode.stretch => (npclip (listMin arr) (listMax arr) arr, v, v)
  let arr1 : List Int := s.1
  let maxClip : Int := s.2.1
  let mv : Int := s.2.2
  let p : List Int × Int :=
    match zeroMode with
    | ZeroMode.clip => (npclip 0 (listMax arr1) arr1, 0)
    | ZeroMode.abs => (arr1.map (fun x => |x|), 0)
    | ZeroMode.stretch => (arr1, listMin arr1)
  let arr2 : List Int := p.1
  let minVal : Int := p.2
  let d : Int := mv - minVal
  let shifted : List Int := arr2.map (fun x => x - minVal)
  let scaled : List Int :=
    if maxClip < d then shifted.map (fun y => truncDiv (y * maxClip) d) else shifted
  (scaled.map (castU bits), arr)

/-- Embedding of `ConvertTo8Bit` from the packaged module (lines 88-89): the value
returned by `DivideConvertType(arr, 8)` with all defaults. -/
def ConvertTo8Bit (arr : List Int) : List Int :=
  (DivideConvertType arr 8 none ZeroMode.clip MaxMode.clip).1

/-- Embedding of `ConvertTo16Bit` from the packaged module (lines 91-92): the value
returned by `DivideConvertType(arr, 16)` with all defaults. -/
def ConvertTo16Bit (arr : List Int) : List Int :=
  (DivideConvertType arr 16 none ZeroMode.clip MaxMode.clip).1


/-- The conversion that claim C1 ascribes to `DivideConvertType` under the
default modes, written from the spec sentence (not from the code): clip
every negative value to 0; when the clipped array's maximum `M` exceeds
`2^bits - 1`, scale every value by `(2^bits - 1) / M` (exact arithmetic,
result cast to the unsigned dtype); otherwise return the values unchanged,
only cast. -/
def divideConvertTypeSpec (arr : List Int) (bits : Nat) : List Int :=
  let clipped : List Int := arr.map (fun x => max x 0)
  let M : Int := listMax clipped
  if 2 ^ bits - 1 < M then
    clipped.map (fun v => castU bits (truncDiv (v * (2 ^ bits - 1)) M))
  else
    clipped

/-- The effective maximum of `DivideConvertType`'s scaling interval: the
given integer `maxVal`, or `arr.max()` when `maxVal` is `None`. -/
def effMaxVal (arr : List Int) (maxVal : Option Int) : Int :=
  match maxVal with
  | none => listMax arr
  | some v => v

/-- The effective minimum of `DivideConvertType`'s scaling interval: the
minimum of the (possibly `maxMode='clip'`-clipped) array for
`zeroMode='stretch'`, and 0 otherwise. -/
def effMinVal (arr : List Int) (maxVal : Option Int) (zeroMode : ZeroMode)
    (maxMode : MaxMode) : Int :=
  match zeroMode with
  | ZeroMode.stretch => listMin (maxClippedArr arr maxVal maxMode)
  | _ => 0

/-! ### The PIL/file model

`Image.open` yields a PIL image; the parts of it this code consumes are its
format string, its mode string, the dtype that `np.array(im)` produces, its
size `(width, height)` and the per-frame pixel data returned by
`im.getdata()`.  `im.seek(k)` succeeds exactly for frame indices `k` below
the number of frames and raises `EOFError` otherwise. -/

/-- The numpy dtypes distinguished by `GetDatatype`:  the unsigned, signed
and float dtypes it tests for, the big-endian 16-bit dtypes `'>u2'` and
`'>i2'`, representative other concrete dtypes, and `np.object` (the
PIL-on-Windows fallback in which `np.array(im)` fails to convert). -/
inductive NpDtype
  | uint8
  | uint16
  | uint32
  | uint64
  | int16
  | int32
  | int64
  | float32
  | float64
  | be_u2
  | be_i2
  | obj
deriving DecidableEq

/-- A PIL image as consumed by this module. -/
structure ImageFile where
  format : String
  mode : String
  dtype : NpDtype
  width : Nat
  height : Nat
  frames : List (List Int)
deriving DecidableEq

/-- The list `_gif_names` from both modules. -/
def gifNames : List String := ["gif", "GIF", "Gif"]

/-- The list `_tif_names` from both modules. -/
def tifNames : List String := ["tif", "TIF", "Tif", "tiff", "TIFF", "Tiff"]

/-- Embedding of `GetDatatype` from the packaged module, lines 163-198.
The `np.object` branch dispatches on `im.mode`; note that for modes `'I'`
and `'F'` the code only prints a message, so the trailing
`return datatype` reads the never-assigned local `datatype` and raises
(`UnboundLocalError`, a `NameError`); and in the final `else` branch the
diagnostic `print 'Datatype looks like:', t.dtype` reads the undefined
name `t` (a leftover from the legacy module), raising `NameError` before
the bare `return` beneath it can return `None`. -/
def GetDatatype (im : ImageFile) : Except PyErr NpDtype :=
  if im.dtype = NpDtype.obj then
    if im.mode = "L" then Except.ok NpDtype.uint8
    else if im.mode = "I;16" ∨ im.mode = "I;16B" then Except.ok NpDtype.uint16
    else if im.mode = "I" ∨ im.mode = "F" then Except.error PyErr.nameError
    else Except.ok NpDtype.uint16
  else if im.dtype = NpDtype.uint8 ∨ im.dtype = NpDtype.uint16 ∨ im.dtype = NpDtype.float32 then
    Except.ok im.dtype
  else if im.dtype = NpDtype.int16 ∨ im.dtype = NpDtype.be_u2 ∨ im.dtype = NpDtype.be_i2 then
    Except.ok NpDtype.uint16
  else
    Except.error PyErr.nameError

/-- The frame-counting loop of `GetShape` (packaged module, lines
132-138): starting from `numFrames = k`, repeatedly `im.seek(numFrames)`
until `EOFError`; `seek(k)` succeeds exactly when `k` is below the number
of frames. -/
def seekFrames (f : ImageFile) (k : Nat) : Nat :=
  if k < f.frames.length then seekFrames f (k + 1) else k
termination_by f.frames.length - k
decreasing_by omega

/-- Embedding of `GetShape` from the packaged module, lines 120-140: assert
the format is a supported TIFF/GIF name, read `h, w = im.size` (so the
Python variable `h` is the width and `w` is the height), count frames by
seeking until `EOFError`, and return `(numFrames, w, h)`. -/
def GetShape (f : ImageFile) : Except PyErr (Nat × Nat × Nat) :=
  if f.format ∈ tifNames ++ gifNames then
    Except.ok (seekFrames f 1, f.height, f.width)
  else
    Except.error PyErr.assertionError

/-- Embedding of `GetShapeMonolithicOrSequence` from the packaged module,
lines 200-206.  The call
`getSortedListOfNumericalEquivalentFiles(filename, dirname)` goes to the
external FilenameSort module (not part of this repository), so its result
is passed in as the parameter `neFiles`. -/
def GetShapeMonolithicOrSequence (neFiles : List String) (f : ImageFile) :
    Except PyErr (Nat × Nat × Nat × Bool) :=
  match GetShape f with
  | Except.error e => Except.error e
  | Except.ok (numFrames, w, h) =>
    let isSequence : Bool := numFrames = 1
    let numFrames : Nat := if isSequence then neFiles.length else numFrames
    Except.ok (numFrames, w, h, isSequence)

/-- The frame-collecting loop of `LoadMonolithic` (packaged module, lines
340-348): append `im.getdata()` for the current frame, then
`im.seek(im.tell() + 1)`; on `EOFError`, stop. -/
def loadFramesFrom (f : ImageFile) (pos : Nat) : List (List Int) :=
  f.frames.getD pos [] ::
    (if pos + 1 < f.frames.length then loadFramesFrom f (pos + 1) else [])
termination_by f.frames.length - pos
decreasing_by omega

/-- A loaded 3-dimensional numpy array: the shape produced by
`t.resize(numFrames, im.size[1], im.size[0])` together with the per-frame
data. -/
structure NpArr3 where
  shape : Nat × Nat × Nat
  data : List (List Int)
deriving DecidableEq

/-- Embedding of `LoadMonolithic` from the packaged module, lines 333-352:
determine the datatype with `GetDatatype` (whose exceptions propagate),
collect every frame's data, and resize to
`(numFrames, im.size[1], im.size[0])`. -/
def LoadMonolithic (f : ImageFile) : Except PyErr NpArr3 :=
  match GetDatatype f with
  | Except.error e => Except.error e
  | Except.ok _ =>
    let l := loadFramesFrom f 0
    Except.ok ⟨(l.length, f.height, f.width), l⟩

/-- Embedding of `SaveMonolithic` from both modules (packaged lines
379-381, legacy lines 322-324).  The body is
`pass #Coming soon! -- see Examples/PIL Examples/gifmaker`: it performs no
file writes and returns `None`.  The result is the list of
`(filename, contents)` pairs written to disk — always empty. -/
def SaveMonolithic (arr : List (List (List Int))) (filename : String) :
    List (String × List (List (List Int))) :=
  []

/-! ### Filename-convention code (sequences) -/

/-- Python `s.split(sep)` for a one-character separator, over the
character list: split at every occurrence of `sep`, keeping empty
pieces. -/
def splitOnChar (sep : Char) : List Char → List (List Char)
  | [] => [[]]
  | c :: rest =>
    let r := splitOnChar sep rest
    if c == sep then [] :: r
    else
      match r with
      | [] => [[c]]
      | h :: t => (c :: h) :: t

/-- The digit-accumulating loop of Python `int(s)`. -/
def parseDigitsAux : List Char → Nat → Option Nat
  | [], acc => some acc
  | c :: rest, acc =>
    if c.isDigit then parseDigitsAux rest (acc * 10 + (c.toNat - '0'.toNat)) else none

/-- Python `int(s)` for the strings this module feeds it: an optional sign
followed by one or more decimal digits.  `none` models the `ValueError`
raise (surrounding whitespace, underscores and other accepted Python forms
are not exercised by the filename convention and are not modelled). -/
def pyInt? : List Char → Option Int
  | [] => none
  | '-' :: rest =>
    if rest.isEmpty then none else (parseDigitsAux rest 0).map (fun n => -(n : Int))
  | '+' :: rest =>
    if rest.isEmpty then none else (parseDigitsAux rest 0).map (fun n => (n : Int))
  | cs => (parseDigitsAux cs 0).map (fun n => (n : Int))

/-- Python `os.path.split(p)[1]`: the basename after the last slash. -/
def basenameOf (p : String) : String :=
  String.mk ((splitOnChar '/' p.toList).getLastD p.toList)

/-- Python `os.path.splitext(p)[0]`, following CPython's `genericpath._splitext`:
split at the last `'.'` when it lies after the last `'/'` and at least one
character between the separator and that dot is not itself a dot (leading
dots of the basename never start an extension). -/
def splitextBase (p : String) : String :=
  let r := p.toList.reverse
  match r.findIdx? (· == '.') with
  | none => p
  | some d =>
    let afterSep : Bool :=
      match r.findIdx? (· == '/') with
      | some s => d < s
      | none => true
    let between := (r.drop (d + 1)).takeWhile (fun c => c != '/')
    if afterSep ∧ between.any (fun c => c != '.') then
      String.mk ((r.drop (d + 1)).reverse)
    else p

/-- Python `'{:03d}'.format(n)` for a nonnegative `n`: the decimal digits,
left-padded with `'0'` to a width of at least three. -/
def pad3 (n : Nat) : String :=
  let s := toString n
  if s.length < 3 then String.mk (List.replicate (3 - s.length) '0') ++ s else s

/-- A single frame (2D image) as saved by `SaveSingle`. -/
abbrev Frame := List (List Int)

/-- An input array of `SaveFileSequence` with between 2 and 4 dimensions
(the function asserts `arr.ndim <= 4`; the claims cover 2D, 3D and 4D). -/
inductive NArr
  | d2 (f : Frame)
  | d3 (fs : List Frame)
  | d4 (g : List (List Frame))

/-- The padding step `arr = arr.reshape((1,)*(4-arr.ndim) + arr.shape)` of
`SaveFileSequence` (packaged module, line 311): a 2D array becomes the
1×1 grid `[[f]]`, a 3D array the 1×n grid `[fs]`, and a 4D array is
unchanged. -/
def reshape4 : NArr → List (List Frame)
  | NArr.d2 f => [[f]]
  | NArr.d3 fs => [fs]
  | NArr.d4 g => g

/-- The filename `new_name.format(i, j)` of `SaveFileSequence` (packaged
module, line 308):
`os.path.splitext(basename)[0] + '_{}_{:03d}.' + im_format`. -/
def newName (basename : String) (fmt : String) (i j : Nat) : String :=
  splitextBase basename ++ "_" ++ toString i ++ "_" ++ pad3 j ++ "." ++ fmt

/-- The inner loop `for j in range(arr.shape[1])` of `SaveFileSequence`
(packaged module, lines 325-329): save frame `j` of stack `i` as
`new_name.format(i, j)`. -/
def saveRow (basename fmt : String) (i : Nat) : Nat → List Frame → List (String × Frame)
  | _, [] => []
  | j, fr :: rest => (newName basename fmt i j, fr) :: saveRow basename fmt i (j + 1) rest

/-- The outer loop `for i in range(arr.shape[0])` of `SaveFileSequence`
(packaged module, line 324). -/
def saveRows (basename fmt : String) : Nat → List (List Frame) → List (String × Frame)
  | _, [] => []
  | i, row :: rest => saveRow basename fmt i 0 row ++ saveRows basename fmt (i + 1) rest

/-- Embedding of `SaveFileSequence` from the packaged module, lines
284-331, with the default `sparseSave=None` (save every frame) and
`functionToRunOnFrames=None` (identity).  The result is the list of
`(filename, frame)` pairs handed to `SaveSingle`, in save order: after the
reshape to 4D, frame `(i, j)` is saved as `new_name.format(i, j)`.  (The
`arr.dtype == np.uint8 and arr.max() > 255` rescale on line 302 is dead
code — a uint8 array cannot exceed 255 — and is omitted.) -/
def SaveFileSequence (arr : NArr) (basename : String) (fmt : String) :
    List (String × Frame) :=
  saveRows basename fmt 0 (reshape4 arr)

/-- One row `[f, t, z]` of the `ftz` list built by `GetFilesAndIndices`
(packaged module, lines 153-160): the file together with
`t = int(s[-2])` and `z = int(s[-1][:3])` for the underscore-split parts
`s` of its basename. -/
structure FTZRow where
  file : String
  t : Int
  z : Int
deriving DecidableEq

/-- The `ftz` construction of `GetFilesAndIndices` for `dims=2` (packaged
module, lines 153-160): for every file whose basename has at least three
`'_'`-separated parts, parse `int(s[-2])` and `int(s[-1][:3])` (a
non-numeric part raises `ValueError`); files with fewer than three parts
are skipped. -/
def buildFTZ : List String → Except PyErr (List FTZRow)
  | [] => Except.ok []
  | f :: rest =>
    let s := splitOnChar '_' (basenameOf f).toList
    if 3 ≤ s.length then
      match pyInt? (s.getD (s.length - 2) []), pyInt? ((s.getLastD []).take 3) with
      | some t, some z => (buildFTZ rest).map (fun l => ⟨f, t, z⟩ :: l)
      | _, _ => Except.error PyErr.valueError
    else buildFTZ rest

/-- Embedding of `LoadSequence4D` from the packaged module, lines 404-423,
together with the `dims=2` branch of `GetFilesAndIndices` it calls (lines
146-161).  `files` is the sorted directory listing (the external
FilenameSort result; note `GetFilesAndIndices` line 148 in fact discards
the caller's `dirname` and passes `dirname=None`, which pops a
`wx` file dialog — the listing used is whatever that produces).

`GetFilesAndIndices` returns `None` for an empty listing and otherwise
`zip(ftz)` — Python 2 `zip` of a single list, i.e. a list of 1-tuples
`[(row,), ...]`, not the intended `zip(*ftz)` transpose.  The call site
`files, t_inds, z_inds = GetFilesAndIndices(...)` therefore raises:
* `TypeError` for an empty listing (unpacking `None`);
* `ValueError` when `len(ftz) != 3` (unpacking a list whose length is not
  3 into three names);
* `TypeError` when `len(ftz) == 3`: then `t_inds` is the 1-tuple
  `(ftz[1],)`, `max(t_inds)` is the list `ftz[1]` itself, and
  `max(t_inds) + 1` adds an `int` to a `list`.
No input reaches the array-building loop, so the result type is the 4D
array it never produces. -/
def LoadSequence4D (files : List String) : Except PyErr (List (List Frame)) :=
  match buildFTZ files with
  | Except.error e => Except.error e
  | Except.ok rows =>
    if files.isEmpty then Except.error PyErr.typeError
    else if rows.length = 3 then Except.error PyErr.typeError
    else Except.error PyErr.valueError

/-! ### Elementary facts about `listMax`, `listMin`, `npclip`, `castU` -/

lemma le_foldl_max (l : List Int) (a : Int) : a ≤ l.foldl max a := by
  induction l generalizing a with
  | nil => exact le_refl a
  | cons x xs ih => exact le_trans (le_max_left a x) (ih (max a x))

lemma mem_le_foldl_max {x : Int} {l : List Int} (hx : x ∈ l) (a : Int) :
    x ≤ l.foldl max a := by
  induction l generalizing a with
  | nil => cases hx
  | cons y ys ih =>
    rcases List.mem_cons.mp hx with h | h
    · subst h
      exact le_trans (le_max_right a x) (le_foldl_max ys (max a x))
    · exact ih h (max a y)

lemma foldl_max_le {l : List Int} {a b : Int} (ha : a ≤ b) (h : ∀ x ∈ l, x ≤ b) :
    l.foldl max a ≤ b := by
  induction l generalizing a with
  | nil => exact ha
  | cons y ys ih =>
    exact ih (max_le ha (h y (List.mem_cons_self y ys)))
      (fun x hx => h x (List.mem_cons_of_mem y hx))

lemma foldl_max_mem (l : List Int) (a : Int) : l.foldl max a = a ∨ l.foldl max a ∈ l := by
  induction l generalizing a with
  | nil => exact Or.inl rfl
  | cons y ys ih =>
    rcases ih (max a y) with h | h
    · rcases max_choice a y with hm | hm
      · exact Or.inl (h.trans hm)
      · exact Or.inr (List.mem_cons.mpr (Or.inl (h.trans hm)))
    · exact Or.inr (List.mem_cons_of_mem y h)

lemma le_listMax {x : Int} {l : List Int} (hx : x ∈ l) : x ≤ listMax l := by
  cases l with
  | nil => cases hx
  | cons y ys =>
    rcases List.mem_cons.mp hx with h | h
    · subst h
      exact le_foldl_max ys x
    · exact mem_le_foldl_max h y

lemma listMax_le {l : List Int} {b : Int} (hne : l ≠ []) (h : ∀ x ∈ l, x ≤ b) :
    listMax l ≤ b := by
  cases l with
  | nil => exact absurd rfl hne
  | cons y ys =>
    exact foldl_max_le (h y (List.mem_cons_self y ys))
      (fun x hx => h x (List.mem_cons_of_mem y hx))

lemma listMax_mem {l : List Int} (hne : l ≠ []) : listMax l ∈ l := by
  cases l with
  | nil => exact absurd rfl hne
  | cons y ys =>
    rcases foldl_max_mem ys y with h | h
    · simp only [listMax, h]
      exact List.mem_cons_self y ys
    · exact List.mem_cons_of_mem y (by simpa only [listMax] using h)

lemma foldl_min_le (l : List Int) (a : Int) : l.foldl min a ≤ a := by
  induction l generalizing a with
  | nil => exact le_refl a
  | cons x xs ih => exact le_trans (ih (min a x)) (min_le_left a x)

lemma foldl_min_le_mem {x : Int} {l : List Int} (hx : x ∈ l) (a : Int) :
    l.foldl min a ≤ x := by
  induction l generalizing a with
  | nil => cases hx
  | cons y ys ih =>
    rcases List.mem_cons.mp hx with h | h
    · subst h
      exact le_trans (foldl_min_le ys (min a x)) (min_le_right a x)
    · exact ih h (min a y)

lemma listMin_le {x : Int} {l : List Int} (hx : x ∈ l) : listMin l ≤ x := by
  cases l with
  | nil => cases hx
  | cons y ys =>
    rcases List.mem_cons.mp hx with h | h
    · subst h
      exact foldl_min_le ys x
    · exact foldl_min_le_mem h y

lemma npclip_length (lo hi : Int) (l : List Int) : (npclip lo hi l).length = l.length := by
  simp [npclip]

/-- Clipping an array to its own `(min, max)` range is the identity, which
is what the legacy `maxMode == 'stretch'` branch computes. -/
lemma npclip_min_max (l : List Int) :
    npclip (listMin l) (listMax l) l = l := by
  unfold npclip
  conv_rhs => rw [← List.map_id l]
  apply List.map_congr_left
  intro x hx
  simp only [id]
  rw [max_eq_left (listMin_le hx), min_eq_left (le_listMax hx)]

/-- With a nonnegative maximum, the in-place `arr.clip(0, arr.max())` of
`zeroMode='clip'` replaces every entry by `max x 0`. -/
lemma npclip_zero_max {l : List Int} (hmax : 0 ≤ listMax l) :
    npclip 0 (listMax l) l = l.map (fun x => max x 0) := by
  unfold npclip
  apply List.map_congr_left
  intro x hx
  exact min_eq_left (max_le (le_listMax hx) hmax)

lemma castU_nonneg (bits : Nat) (n : Int) : 0 ≤ castU bits n :=
  Int.emod_nonneg n (by positivity)

lemma castU_lt (bits : Nat) (n : Int) : castU bits n < 2 ^ bits :=
  Int.emod_lt_of_pos n (by positivity)

lemma castU_eq_self {bits : Nat} {n : Int} (h0 : 0 ≤ n) (hlt : n < 2 ^ bits) :
    castU bits n = n :=
  Int.emod_eq_of_lt h0 hlt

lemma ratioLt1_eq_decide {mc d : Int} (hd : 0 < d) : ratioLt1 mc d = decide (mc < d) := by
  simp [ratioLt1, hd]

lemma ratioLt1_false_of_le {mc d : Int} (h0 : 0 ≤ d) (hmc : 0 < mc) (hle : d ≤ mc) :
    ratioLt1 mc d = false := by
  rcases lt_or_eq_of_le h0 with hd | hd
  · rw [ratioLt1_eq_decide hd]
    simp [not_lt.mpr hle]
  · simp [ratioLt1, ← hd, not_lt.mpr (le_of_lt hmc)]

/-- Clipping negatives to 0 does not change a nonnegative maximum. -/
lemma listMax_map_max_zero {arr : List Int} (hne : arr ≠ []) (hmax : 0 ≤ listMax arr) :
    listMax (arr.map (fun x => max x 0)) = listMax arr := by
  apply le_antisymm
  · apply listMax_le (by simpa using hne)
    intro y hy
    rcases List.mem_map.mp hy with ⟨x, hx, rfl⟩
    exact max_le (le_listMax hx) hmax
  · have hmem : listMax arr ∈ arr := listMax_mem hne
    have : max (listMax arr) 0 ∈ arr.map (fun x => max x 0) :=
      List.mem_map_of_mem (fun x => max x 0) hmem
    rw [max_eq_left hmax] at this
    exact le_listMax this

lemma two_pow_sub_one_pos {bits : Nat} (hb : 1 ≤ bits) : (0 : Int) < 2 ^ bits - 1 := by
  have h2 : (2 : Int) ^ 1 ≤ 2 ^ bits := pow_le_pow_right₀ (by norm_num) hb
  simp only [pow_one] at h2
  omega

/-! ### C1: `DivideConvertType` with the default modes -/

/-- C1 (amended): with the default modes and a nonempty array whose
maximum is nonnegative, `DivideConvertType` clips negatives to 0 and
scales by `(2^bits - 1) / M` exactly when the maximum `M` exceeds
`2^bits - 1`, as the spec sentence describes. -/
theorem divideConvertType_default_matches_spec (arr : List Int) (bits : Nat)
    (hne : arr ≠ []) (hbits : bits ∈ [8, 16, 32, 64]) (hmax : 0 ≤ listMax arr) :
    (DivideConvertType arr bits none ZeroMode.clip MaxMode.clip).1 =
      divideConvertTypeSpec arr bits := by
  have hb1 : 1 ≤ bits := by
    simp only [List.mem_cons, List.not_mem_nil, or_false] at hbits
    rcases hbits with rfl | rfl | rfl | rfl <;> norm_num
  have hmc : (0 : Int) < 2 ^ bits - 1 := two_pow_sub_one_pos hb1
  have hM : listMax (arr.map (fun x => max x 0)) = listMax arr :=
    listMax_map_max_zero hne hmax
  delta DivideConvertType divideConvertTypeSpec
  simp only [maxClippedArr, sub_zero, npclip_zero_max hmax, hM]
  by_cases hscale : 2 ^ bits - 1 < listMax arr
  · rw [ratioLt1_eq_decide (lt_trans hmc hscale)]
    simp only [decide_eq_true_eq, hscale, or_true, if_true]
  · rw [ratioLt1_false_of_le hmax hmc (not_lt.mp hscale)]
    simp only [decide_eq_true_eq, Bool.false_eq_true, or_false, if_neg hscale]
    rw [if_neg (by simp)]
    conv_rhs => rw [← List.map_id (arr.map (fun x => max x 0))]
    apply List.map_congr_left
    intro y hy
    rcases List.mem_map.mp hy with ⟨x, hx, rfl⟩
    have hle : max x 0 ≤ 2 ^ bits - 1 := (max_le (le_listMax hx) hmax).trans (not_lt.mp hscale)
    simp only [id]
    exact castU_eq_self (le_max_right x 0) (by linarith)

/-- C1 as stated is false on an all-negative array: the spec sentence
predicts `[0]` for input `[-5]` (clip the negative to 0; the maximum 0 does
not exceed `2^16 - 1`), but `arr.clip(0, arr.max())` with a negative
`arr.max()` leaves the entry at `-5`, and the negative `clipRatio`
`65535 / (-5)` then maps it to `65535`. -/
theorem divideConvertType_default_spec_counterexample :
    (DivideConvertType [-5] 16 none ZeroMode.clip MaxMode.clip).1 = [65535] ∧
      divideConvertTypeSpec [-5] 16 = [0] ∧ ([65535] : List Int) ≠ [0] := by
  decide

/-- Witness: the amended C1 theorem applied to the concrete array
`[-2, 3, 300]` with `bits = 8` (the scaling path: the clipped maximum 300
exceeds 255). -/
theorem divideConvertType_default_matches_spec_witness :
    (DivideConvertType [-2, 3, 300] 8 none ZeroMode.clip MaxMode.clip).1 =
      divideConvertTypeSpec [-2, 3, 300] 8 :=
  divideConvertType_default_matches_spec [-2, 3, 300] 8 (by decide) (by decide) (by decide)

/-! ### C9: idempotence of `ConvertTo8Bit` / `ConvertTo16Bit` -/

/-- Every value returned by `DivideConvertType` lies in `[0, 2^bits)`:
each branch ends in the `astype` cast `castU`. -/
lemma divideConvertType_ret_mem_range (arr : List Int) (bits : Nat) (maxVal : Option Int)
    (zeroMode : ZeroMode) (maxMode : MaxMode) :
    ∀ y ∈ (DivideConvertType arr bits maxVal zeroMode maxMode).1, 0 ≤ y ∧ y < 2 ^ bits := by
  delta DivideConvertType
  dsimp only
  intro y hy
  split at hy <;>
    [skip; (rcases List.mem_map.mp hy with ⟨x, _, rfl⟩; exact ⟨castU_nonneg _ _, castU_lt _ _⟩)]
  split at hy <;> (rcases List.mem_map.mp hy with ⟨x, _, rfl⟩
                   exact ⟨castU_nonneg _ _, castU_lt _ _⟩)

/-- The function `DivideConvertType` preserves the array length. -/
lemma divideConvertType_ret_length (arr : List Int) (bits : Nat) (maxVal : Option Int)
    (zeroMode : ZeroMode) (maxMode : MaxMode) :
    (DivideConvertType arr bits maxVal zeroMode maxMode).1.length = arr.length := by
  have h1 : ∀ mv mm, (maxClippedArr arr mv mm).length = arr.length := by
    intro mv mm
    delta maxClippedArr
    rcases mm with _ | _ <;> rcases mv with _ | v <;> simp [npclip_length]
  delta DivideConvertType
  dsimp only
  split
  · split <;> (rcases zeroMode with _ | _ | _ <;> simp [npclip_length, h1])
  · rcases zeroMode with _ | _ | _ <;> simp [npclip_length, h1]

/-- With the default modes, an array whose values already lie in
`[0, 2^bits - 1]` is returned unchanged (the cast is the identity there). -/
lemma divideConvertType_default_in_range_id {arr : List Int} {bits : Nat}
    (hne : arr ≠ []) (hb1 : 1 ≤ bits)
    (h : ∀ x ∈ arr, 0 ≤ x ∧ x ≤ 2 ^ bits - 1) :
    (DivideConvertType arr bits none ZeroMode.clip MaxMode.clip).1 = arr := by
  have hmc : (0 : Int) < 2 ^ bits - 1 := two_pow_sub_one_pos hb1
  have hmax0 : 0 ≤ listMax arr := le_trans (h _ (listMax_mem hne)).1 (le_refl _)
  have hmaxle : listMax arr ≤ 2 ^ bits - 1 := listMax_le hne (fun x hx => (h x hx).2)
  have hclip : npclip 0 (listMax arr) arr = arr := by
    unfold npclip
    conv_rhs => rw [← List.map_id arr]
    apply List.map_congr_left
    intro x hx
    simp only [id]
    rw [max_eq_left (h x hx).1, min_eq_left (le_listMax hx)]
  delta DivideConvertType
  simp only [maxClippedArr, sub_zero, hclip,
    ratioLt1_false_of_le hmax0 hmc hmaxle]
  simp only [Bool.false_eq_true, or_false, if_neg (by simp : ¬ZeroMode.clip = ZeroMode.stretch)]
  conv_rhs => rw [← List.map_id arr]
  apply List.map_congr_left
  intro x hx
  simp only [id]
  exact castU_eq_self (h x hx).1 (by have := (h x hx).2; linarith)

/-- C9: `ConvertTo8Bit` and `ConvertTo16Bit` are idempotent on nonempty
arrays (numpy's `arr.max()` raises on an empty array), and on an array
whose values already lie in `[0, 2^bits - 1]` they change no value — only
the dtype. -/
theorem convertTo8Bit_convertTo16Bit_idempotent :
    (∀ arr : List Int, arr ≠ [] → ConvertTo8Bit (ConvertTo8Bit arr) = ConvertTo8Bit arr) ∧
    (∀ arr : List Int, arr ≠ [] → ConvertTo16Bit (ConvertTo16Bit arr) = ConvertTo16Bit arr) ∧
    (∀ arr : List Int, (∀ x ∈ arr, 0 ≤ x ∧ x ≤ 2 ^ 8 - 1) → ConvertTo8Bit arr = arr) ∧
    (∀ arr : List Int, (∀ x ∈ arr, 0 ≤ x ∧ x ≤ 2 ^ 16 - 1) → ConvertTo16Bit arr = arr) := by
  have key : ∀ (bits : Nat) (arr : List Int), 1 ≤ bits → arr ≠ [] →
      (DivideConvertType (DivideConvertType arr bits none ZeroMode.clip MaxMode.clip).1
        bits none ZeroMode.clip MaxMode.clip).1 =
      (DivideConvertType arr bits none ZeroMode.clip MaxMode.clip).1 := by
    intro bits arr hb1 hne
    have hr := divideConvertType_ret_mem_range arr bits none ZeroMode.clip MaxMode.clip
    have hlen := divideConvertType_ret_length arr bits none ZeroMode.clip MaxMode.clip
    have hne2 : (DivideConvertType arr bits none ZeroMode.clip MaxMode.clip).1 ≠ [] := by
      intro hnil
      rw [hnil] at hlen
      exact hne (List.eq_nil_of_length_eq_zero hlen.symm)
    exact divideConvertType_default_in_range_id hne2 hb1
      (fun x hx => ⟨(hr x hx).1, Int.le_sub_one_iff.mpr (hr x hx).2⟩)
  refine ⟨fun arr hne => key 8 arr (by norm_num) hne,
          fun arr hne => key 16 arr (by norm_num) hne,
          fun arr h => ?_, fun arr h => ?_⟩
  · rcases eq_or_ne arr [] with rfl | hne
    · decide
    · exact divideConvertType_default_in_range_id hne (by norm_num) h
  · rcases eq_or_ne arr [] with rfl | hne
    · decide
    · exact divideConvertType_default_in_range_id hne (by norm_num) h

/-- Witness: idempotence and the in-range identity evaluated on concrete
arrays (`[300, 100]` needs scaling; `[7, 200]` is already in range). -/
theorem convertTo8Bit_convertTo16Bit_idempotent_witness :
    ConvertTo8Bit (ConvertTo8Bit [300, 100]) = ConvertTo8Bit [300, 100] ∧
      ConvertTo16Bit [7, 200] = [7, 200] :=
  ⟨convertTo8Bit_convertTo16Bit_idempotent.1 [300, 100] (by decide),
   convertTo8Bit_convertTo16Bit_idempotent.2.2.2 [7, 200] (by decide)⟩

/-! ### C10: in-place mutation of the caller's array -/

/-- With the default modes, the caller's array after the packaged
`DivideConvertType` holds the result of the in-place
`arr.clip(0, arr.max(), out=arr)`. -/
lemma divideConvertType_default_caller (arr : List Int) (bits : Nat) :
    (DivideConvertType arr bits none ZeroMode.clip MaxMode.clip).2 =
      npclip 0 (listMax arr) arr := rfl

/-- With an integer `maxVal` and the default modes, the caller's array
after the packaged `DivideConvertType` holds the result of the two
in-place clips. -/
lemma divideConvertType_someClip_caller (arr : List Int) (bits : Nat) (v : Int) :
    (DivideConvertType arr bits (some v) ZeroMode.clip MaxMode.clip).2 =
      npclip 0 (listMax (npclip (listMin arr) v arr)) (npclip (listMin arr) v arr) := rfl

/-- C10 (amended): the legacy `DivideConvertType` never mutates its input;
the packaged one mutates it in place — under the default
`zeroMode='clip'`, provided the array's maximum is nonnegative, every
entry is replaced by `max x 0` (in particular every negative entry becomes
0); and with `maxMode='clip'` and an integer `maxVal`, every entry above
`maxVal` is overwritten with `maxVal`. -/
theorem divideConvertType_mutates_in_place :
    (∀ (arr : List Int) (bits : Nat) (maxVal : Option Int) (zm : ZeroMode) (mm : MaxMode),
      (DivideConvertTypeLegacy arr bits maxVal zm mm).2 = arr) ∧
    (∀ (arr : List Int) (bits : Nat), 0 ≤ listMax arr →
      (DivideConvertType arr bits none ZeroMode.clip MaxMode.clip).2 =
        arr.map (fun x => max x 0)) ∧
    (∀ (arr : List Int) (bits : Nat) (v : Int),
      List.Forall₂ (fun x y => v < x → y = v) arr
        (DivideConvertType arr bits (some v) ZeroMode.clip MaxMode.clip).2) := by
  refine ⟨fun arr bits maxVal zm mm => rfl, fun arr bits hmax => ?_, fun arr bits v => ?_⟩
  · rw [divideConvertType_default_caller, npclip_zero_max hmax]
  · rw [divideConvertType_someClip_caller]
    unfold npclip
    rw [List.map_map, List.forall₂_map_right_iff, List.forall₂_same]
    intro x hx hvx
    have hne : arr ≠ [] := List.ne_nil_of_mem hx
    have hfx : min (max x (listMin arr)) v = v := by
      rw [max_eq_left (listMin_le hx), min_eq_right (le_of_lt hvx)]
    have hvmem : v ∈ arr.map (fun z => min (max z (listMin arr)) v) := by
      have hm := List.mem_map_of_mem (fun z => min (max z (listMin arr)) v) hx
      simp only at hm
      rwa [hfx] at hm
    have hvle : v ≤ listMax (arr.map (fun x => min (max x (listMin arr)) v)) :=
      le_listMax hvmem
    simp only [Function.comp]
    rw [hfx]
    rcases le_or_lt 0 v with h0 | h0
    · rw [max_eq_left h0, min_eq_left hvle]
    · have hM1 : listMax (arr.map (fun x => min (max x (listMin arr)) v)) = v := by
        apply le_antisymm ?_ hvle
        apply listMax_le (by simpa using hne)
        intro y hy
        rcases List.mem_map.mp hy with ⟨z, _, rfl⟩
        exact min_le_right _ v
      rw [max_eq_right (le_of_lt h0), hM1, min_eq_right (le_of_lt h0)]

/-- C10 as stated is false on an all-negative array: after
`DivideConvertType([-5])` with the defaults, the caller's array still
holds the negative entry `-5` (numpy's `clip(0, -5)` maps `-5` to the
upper bound `-5`, not to 0). -/
theorem divideConvertType_mutates_in_place_counterexample :
    (DivideConvertType [-5] 16 none ZeroMode.clip MaxMode.clip).2 = [-5] ∧
      (-5 : Int) < 0 ∧ ([-5] : List Int) ≠ [0] := by
  decide

/-- Witness: the in-place clip of the amended C10 theorem on `[-3, 7]`
(nonnegative maximum): the caller's array becomes `[0, 7]`. -/
theorem divideConvertType_mutates_in_place_witness :
    (DivideConvertType [-3, 7] 16 none ZeroMode.clip MaxMode.clip).2 = [0, 7] := by
  rw [divideConvertType_mutates_in_place.2.1 [-3, 7] 16 (by decide)]
  decide

/-! ### C8: the packaged `DivideConvertType` refines the legacy one -/

/-- C8: for every valid parameter combination on a nonempty array with the
effective maximum strictly above the effective minimum, the packaged and
the legacy `DivideConvertType` return elementwise-equal arrays (both of
dtype `type_dict[bits]`; arithmetic modelled exactly). -/
theorem divideConvertType_refines_legacy (arr : List Int) (bits : Nat)
    (maxVal : Option Int) (zeroMode : ZeroMode) (maxMode : MaxMode)
    (hne : arr ≠ [])
    (hd : effMinVal arr maxVal zeroMode maxMode < effMaxVal arr maxVal) :
    (DivideConvertType arr bits maxVal zeroMode maxMode).1 =
      (DivideConvertTypeLegacy arr bits maxVal zeroMode maxMode).1 := by
  rcases maxVal with _ | v <;> cases maxMode <;> cases zeroMode <;>
    · delta DivideConvertType DivideConvertTypeLegacy
      dsimp only
      simp only [maxClippedArr, effMinVal, effMaxVal, npclip_min_max arr, sub_zero,
        reduceCtorEq, false_or, true_or, if_true] at hd ⊢
      first
        | rw [ratioLt1_eq_decide hd]
        | rw [ratioLt1_eq_decide (sub_pos.mpr hd)]
      simp only [decide_eq_true_eq]
      split_ifs with hlt <;> simp only [List.map_map] <;> rfl

/-- Witness: the C8 equivalence on the concrete array `[5, 300]` with
`bits = 8` and all defaults (effective minimum 0 below the effective
maximum 300). -/
theorem divideConvertType_refines_legacy_witness :
    (DivideConvertType [5, 300] 8 none ZeroMode.clip MaxMode.clip).1 =
      (DivideConvertTypeLegacy [5, 300] 8 none ZeroMode.clip MaxMode.clip).1 :=
  divideConvertType_refines_legacy [5, 300] 8 none ZeroMode.clip MaxMode.clip
    (by decide) (by decide)

/-! ### C2: `SaveMonolithic` -/

/-- C2 (the code contradicts the spec): `SaveMonolithic` is an
unimplemented stub — for every array and filename it performs no file
write at all. -/
theorem saveMonolithic_writes_nothing (arr : List (List (List Int))) (filename : String) :
    SaveMonolithic arr filename = [] :=
  rfl

/-! ### C3 and C7: shape inference -/

/-- The `GetShape` seek loop starting at `k` stops at `max k` (number of
frames). -/
lemma seekFrames_eq (f : ImageFile) (k : Nat) : seekFrames f k = max k f.frames.length := by
  have key : ∀ n k, f.frames.length - k ≤ n → seekFrames f k = max k f.frames.length := by
    intro n
    induction n with
    | zero =>
      intro k hk
      rw [seekFrames]
      have hnk : ¬k < f.frames.length := by omega
      rw [if_neg hnk]
      omega
    | succ n ih =>
      intro k hk
      rw [seekFrames]
      by_cases h : k < f.frames.length
      · rw [if_pos h, ih (k + 1) (by omega)]
        omega
      · rw [if_neg h]
        omega
  exact key (f.frames.length - k) k (le_refl _)

/-- The `LoadMonolithic` collection loop starting at `pos` collects
`max 1 (numFrames - pos)` frames (at least one: the loop body runs before
the seek). -/
lemma loadFramesFrom_length (f : ImageFile) (pos : Nat) :
    (loadFramesFrom f pos).length = max 1 (f.frames.length - pos) := by
  have key : ∀ n pos, f.frames.length - pos ≤ n →
      (loadFramesFrom f pos).length = max 1 (f.frames.length - pos) := by
    intro n
    induction n with
    | zero =>
      intro pos hk
      rw [loadFramesFrom]
      have h : ¬pos + 1 < f.frames.length := by omega
      rw [if_neg h]
      simp only [List.length_cons, List.length_nil]
      omega
    | succ n ih =>
      intro pos hk
      rw [loadFramesFrom]
      by_cases h : pos + 1 < f.frames.length
      · rw [if_pos h]
        simp only [List.length_cons, ih (pos + 1) (by omega)]
        omega
      · rw [if_neg h]
        simp only [List.length_cons, List.length_nil]
        omega
  exact key (f.frames.length - pos) pos (le_refl _)

/-- C3: `GetShapeMonolithicOrSequence` classifies the file as a sequence
exactly when `GetShape` reports one frame; in that case the returned
frame count is the number of numerically-equivalent files, otherwise it is
`GetShape`'s count; width and height pass through unchanged. -/
theorem getShapeMonolithicOrSequence_spec (neFiles : List String) (f : ImageFile)
    (n w h : Nat) (s : Bool)
    (hres : GetShapeMonolithicOrSequence neFiles f = Except.ok (n, w, h, s)) :
    ∃ n0, GetShape f = Except.ok (n0, w, h) ∧ (s = true ↔ n0 = 1) ∧
      (s = true → n = neFiles.length) ∧ (s = false → n = n0) := by
  unfold GetShapeMonolithicOrSequence at hres
  cases hg : GetShape f with
  | error e =>
    rw [hg] at hres
    exact absurd hres (by simp)
  | ok t =>
    obtain ⟨n0, w0, h0⟩ := t
    rw [hg] at hres
    simp only [Except.ok.injEq, Prod.mk.injEq] at hres
    obtain ⟨hn, hw, hh, hs⟩ := hres
    subst hw
    subst hh
    subst hs
    refine ⟨n0, rfl, by simp, ?_, ?_⟩
    · intro hst
      rw [← hn, if_pos hst]
    · intro hsf
      rw [← hn, if_neg (by simp_all)]

/-- Witness: C3 on a concrete one-frame GIF (width 2, height 3) with two
numerically-equivalent files in its directory: it is classified as a
sequence of 2 frames. -/
theorem getShapeMonolithicOrSequence_spec_witness :
    ∃ n0, GetShape ⟨"GIF", "P", NpDtype.uint8, 2, 3, [[0, 0, 0, 0, 0, 0]]⟩ =
        Except.ok (n0, 3, 2) ∧ (true = true ↔ n0 = 1) ∧
        (true = true → 2 = (["a", "b"] : List String).length) ∧
        (true = false → 2 = n0) :=
  getShapeMonolithicOrSequence_spec ["a", "b"] _ 2 3 2 true (by
    unfold GetShapeMonolithicOrSequence GetShape
    rw [seekFrames_eq]
    decide)

/-- C7: for a supported format whose datatype resolves, the shape of the
array returned by `LoadMonolithic` is exactly the triple returned by
`GetShape`. -/
theorem loadMonolithic_shape_eq_getShape (f : ImageFile)
    (hfmt : f.format ∈ tifNames ++ gifNames) (d : NpDtype)
    (hdt : GetDatatype f = Except.ok d) (hne : f.frames ≠ []) :
    ∃ a : NpArr3, LoadMonolithic f = Except.ok a ∧ GetShape f = Except.ok a.shape := by
  refine ⟨⟨((loadFramesFrom f 0).length, f.height, f.width), loadFramesFrom f 0⟩, ?_, ?_⟩
  · unfold LoadMonolithic
    rw [hdt]
  · unfold GetShape
    rw [if_pos hfmt]
    have h1 : seekFrames f 1 = max 1 f.frames.length := seekFrames_eq f 1
    have h2 : (loadFramesFrom f 0).length = max 1 (f.frames.length - 0) :=
      loadFramesFrom_length f 0
    simp only [Nat.sub_zero] at h2
    dsimp only
    rw [h1, h2]

/-- Witness: C7 on a concrete two-frame GIF of width 2 and height 1. -/
theorem loadMonolithic_shape_eq_getShape_witness :
    ∃ a : NpArr3,
      LoadMonolithic ⟨"GIF", "P", NpDtype.uint8, 2, 1, [[1, 2], [3, 4]]⟩ = Except.ok a ∧
        GetShape ⟨"GIF", "P", NpDtype.uint8, 2, 1, [[1, 2], [3, 4]]⟩ = Except.ok a.shape :=
  loadMonolithic_shape_eq_getShape _ (by decide) NpDtype.uint8 (by decide) (by decide)

/-! ### C5: `GetDatatype` -/

/-- C5 (code bug): the recognised dtypes and object-modes resolve as the
claim says (`uint8`/`int16`/object-`'L'`/object-unknown shown here), but
for any other concrete dtype (here `int32`) the function raises
`NameError` on the undefined name `t` instead of returning `None`, and for
object dtype with mode `'I'` it raises `NameError` on the never-assigned
local `datatype` instead of returning a dtype. -/
theorem getDatatype_raises_on_unrecognised :
    GetDatatype ⟨"TIFF", "I;16", NpDtype.int32, 4, 4, [[0]]⟩ = Except.error PyErr.nameError ∧
    GetDatatype ⟨"TIFF", "I", NpDtype.obj, 4, 4, [[0]]⟩ = Except.error PyErr.nameError ∧
    GetDatatype ⟨"GIF", "P", NpDtype.uint8, 4, 4, [[0]]⟩ = Except.ok NpDtype.uint8 ∧
    GetDatatype ⟨"TIFF", "I;16", NpDtype.int16, 4, 4, [[0]]⟩ = Except.ok NpDtype.uint16 ∧
    GetDatatype ⟨"TIFF", "L", NpDtype.obj, 4, 4, [[0]]⟩ = Except.ok NpDtype.uint8 ∧
    GetDatatype ⟨"TIFF", "QQQ", NpDtype.obj, 4, 4, [[0]]⟩ = Except.ok NpDtype.uint16 := by
  decide

/-! ### C4: `LoadSequence4D` -/

/-- C4 (code bug): the packaged `LoadSequence4D` raises on every input —
`GetFilesAndIndices` returns `zip(ftz)` (a list of 1-tuples) instead of
the transpose `zip(*ftz)`, so the destructuring
`files, t_inds, z_inds = ...` raises `ValueError` (or `TypeError` for the
empty/length-3 listings); it never builds the 4D array the claim
describes. -/
theorem loadSequence4D_always_raises (files : List String) :
    ∃ e, LoadSequence4D files = Except.error e := by
  unfold LoadSequence4D
  cases hb : buildFTZ files with
  | error e => exact ⟨e, rfl⟩
  | ok rows =>
    by_cases hemp : files.isEmpty
    · exact ⟨PyErr.typeError, by simp [hemp]⟩
    · by_cases h3 : rows.length = 3
      · exact ⟨PyErr.typeError, by simp [hemp, h3]⟩
      · exact ⟨PyErr.valueError, by simp [hemp, h3]⟩

/-- The failing input of C4 evaluated: a directory of two well-formed
sequence files raises `ValueError` at the tuple unpacking. -/
theorem loadSequence4D_failing_input :
    LoadSequence4D ["d/a_1_000.gif", "d/a_2_000.gif"] = Except.error PyErr.valueError := by
  decide

/-! ### C6: `SaveFileSequence` naming -/

/-- C6 (amended): `SaveFileSequence` saves frame `(t, z)` of the reshaped
4D array as `<base>_<t>_<zzz>.<format>` with `z` zero-padded to AT LEAST
three digits (`'{:03d}'`, wider once the index exceeds 999): a 2D array is
saved once with `t = z = 0`, a 3D array with `t = 0` and `z` ranging over
the frames, a 4D array over both indices. -/
lemma saveRow_eq_mapIdx (b fmt : String) (i : Nat) (row : List Frame) :
    ∀ j, saveRow b fmt i j row = row.mapIdx (fun k fr => (newName b fmt i (j + k), fr)) := by
  induction row with
  | nil => intro j; simp [saveRow]
  | cons fr rest ih =>
    intro j
    rw [saveRow, List.mapIdx_cons, ih (j + 1)]
    have hadd : ∀ k : Nat, j + 1 + k = j + (k + 1) := fun k => by omega
    simp [hadd]

lemma saveRows_eq_mapIdx (b fmt : String) (g : List (List Frame)) :
    ∀ i, saveRows b fmt i g =
      (g.mapIdx (fun k row => row.mapIdx (fun j fr => (newName b fmt (i + k) j, fr)))).flatten := by
  induction g with
  | nil => intro i; simp [saveRows]
  | cons row rest ih =>
    intro i
    rw [saveRows, List.mapIdx_cons, List.flatten_cons, ih (i + 1),
      saveRow_eq_mapIdx b fmt i row 0]
    have hadd : ∀ k : Nat, i + 1 + k = i + (k + 1) := fun k => by omega
    simp [hadd]

theorem saveFileSequence_names :
    (∀ (f : Frame) (b fmt : String),
      SaveFileSequence (NArr.d2 f) b fmt = [(newName b fmt 0 0, f)]) ∧
    (∀ (fs : List Frame) (b fmt : String),
      SaveFileSequence (NArr.d3 fs) b fmt =
        fs.mapIdx (fun j fr => (newName b fmt 0 j, fr))) ∧
    (∀ (g : List (List Frame)) (b fmt : String),
      SaveFileSequence (NArr.d4 g) b fmt =
        (g.mapIdx (fun i row => row.mapIdx (fun j fr => (newName b fmt i j, fr)))).flatten) ∧
    (∀ j : Nat, 3 ≤ (pad3 j).length) ∧
    pad3 0 = "000" ∧ pad3 999 = "999" ∧ pad3 1000 = "1000" := by
  refine ⟨?_, ?_, ?_, ?_, by decide, by decide, by decide⟩
  · intro f b fmt
    rfl
  · intro fs b fmt
    show saveRows b fmt 0 [fs] = _
    rw [saveRows, saveRows, List.append_nil, saveRow_eq_mapIdx b fmt 0 fs 0]
    simp
  · intro g b fmt
    show saveRows b fmt 0 g = _
    rw [saveRows_eq_mapIdx b fmt g 0]
    simp
  · intro j
    unfold pad3
    by_cases h : (toString j).length < 3
    · rw [if_pos h, String.length_append]
      have hrep : (String.mk (List.replicate (3 - (toString j).length) '0')).length =
          3 - (toString j).length := by
        show (List.replicate (3 - (toString j).length) '0').length = _
        exact List.length_replicate _ _
      omega
    · rw [if_neg h]
      omega

set_option maxRecDepth 10000 in
set_option maxHeartbeats 2000000 in
/-- C6 as stated is false once a 3D stack has more than 1000 frames: frame
1000 is saved as `b_0_1000.gif`, whose `z` field has four digits, not
exactly three. -/
theorem saveFileSequence_pad_counterexample :
    ((SaveFileSequence (NArr.d3 (List.replicate 1001 [[0]])) "b.gif" "gif").getD 1000
        ("", [])).1 = "b_0_1000.gif" ∧ (pad3 1000).length = 4 := by
  decide

end GifTiffLoader
